import Mathlib

/-!
Verification of the chess-kmaps evaluation library.

The library computes five normalized heuristic scores (Material, King Safety,
Activity, Pawn Structure, Space) for both sides of a chess position.  The
board adapter (chess.js) is external to the repository: a decoded position is
modelled as an opaque record exposing piece-by-square lookup and, for the
mobility-based metrics, a legal-move list per side to move (the library forces
the side to move before enumerating moves, so the move list is indexed by
side).  JavaScript numbers are modelled as exact rationals.
-/

namespace KMaps

/-- The two sides, `w`hite and `b`lack. -/
inductive Side
  | w
  | b
deriving DecidableEq, Repr

/-- Piece kinds, named as in chess.js type tags. -/
inductive PT
  | p
  | n
  | b
  | r
  | q
  | k
deriving DecidableEq, Repr

/-- A piece on the board: kind plus owning side. -/
structure Piece where
  ptype : PT
  color : Side
deriving DecidableEq, Repr

/-- A verbose legal move as exposed by the adapter: moving piece kind and
destination square (file 0-7, rank 1-8). -/
structure Move where
  piece : PT
  toFile : Int
  toRank : Int
deriving DecidableEq, Repr

/-- A decoded position: square lookup (`get file rank`, file 0-7, rank 1-8)
and the legal-move list produced after forcing the side to move.  Only these
two capabilities of the external adapter are consumed by the metrics. -/
structure Pos where
  get : Int → Int → Option Piece
  moves : Side → List Move

/-- The opposing side. -/
def enemySide : Side → Side
  | Side.w => Side.b
  | Side.b => Side.w

/-- `isOnBoard` from the pawn-structure utilities: file 0-7, rank 1-8. -/
def isOnBoard (f r : Int) : Bool :=
  0 ≤ f && f ≤ 7 && 1 ≤ r && r ≤ 8

/-- Guarded square lookup: chess.js `game.get` yields nothing for an
off-board square name. -/
def boardGet (pos : Pos) (f r : Int) : Option Piece :=
  if isOnBoard f r then pos.get f r else none

/-- The `game.board()` traversal order: ranks 8 down to 1, files a to h,
as (file, rank) pairs. -/
def boardScan : List (Int × Int) :=
  (List.range 8).flatMap (fun rIdx =>
    (List.range 8).map (fun fIdx => ((fIdx : Int), (8 : Int) - (rIdx : Int))))

/-- `clamp` from mathUtils.js: restrict a value to [0, 1]. -/
def clamp (x : ℚ) : ℚ :=
  max 0 (min 1 x)

/-- Closed integer interval [lo, hi] as a list (empty when hi < lo); used to
model rank-scanning loops. -/
def intsFromTo (lo hi : Int) : List Int :=
  (List.range (hi + 1 - lo).toNat).map (fun i => lo + (i : Int))

/-! ## Material metric (material.js) -/

/-- Base piece values: pawn 1, knight 3, bishop 3, rook 5, queen 9, king 0. -/
def pieceValue : PT → ℚ
  | PT.p => 1
  | PT.n => 3
  | PT.b => 3
  | PT.r => 5
  | PT.q => 9
  | PT.k => 0

/-- The board traversal of `getMaterialBoth`: accumulate total piece value
for White (first component) and Black (second component). -/
def materialTotals (pos : Pos) : ℚ × ℚ :=
  boardScan.foldl
    (fun acc s =>
      match boardGet pos s.1 s.2 with
      | some pc =>
          if pc.color = Side.w then (acc.1 + pieceValue pc.ptype, acc.2)
          else (acc.1, acc.2 + pieceValue pc.ptype)
      | none => acc)
    (0, 0)

/-- `getMaterialBoth`: normalized material scores (White, Black). -/
def getMaterialBoth (pos : Pos) : ℚ × ℚ :=
  let diff := (materialTotals pos).1 - (materialTotals pos).2
  (clamp ((diff + 39) / 78), clamp ((-diff + 39) / 78))

/-! ## King Safety metric (kingSafety.js) -/

/-- The king-locating scan of `getKingSafety`: traverse the board in
`board()` order and keep overwriting, so the last king found in scan order
is returned (file, rank). -/
def findKing (pos : Pos) (c : Side) : Option (Int × Int) :=
  boardScan.foldl
    (fun acc s =>
      match boardGet pos s.1 s.2 with
      | some pc => if pc.ptype = PT.k ∧ pc.color = c then some s else acc
      | none => acc)
    none

/-- `squareHasPawn` from pawnStructure.js (also the shield test of
kingSafety.js): the square is on the board and holds a pawn of the given
side. -/
def squareHasPawn (pos : Pos) (c : Side) (f r : Int) : Bool :=
  match boardGet pos f r with
  | some pc => pc.ptype == PT.p && pc.color == c
  | none => false

/-- The pawn-shield loop of `getKingSafety`: probe the front rank at files
`kingFile + df` for `df = -1, 0, 1`, each clipped into 0-7, counting friendly
pawns (a clipped probe can repeat a file). -/
def shieldCount (pos : Pos) (c : Side) (kingFile frontRank : Int) : Nat :=
  ([-1, 0, 1] : List Int).foldl
    (fun acc df =>
      let file := max 0 (min 7 (kingFile + df))
      if squareHasPawn pos c file frontRank then acc + 1 else acc)
    0

/-- The enemy-pressure piece weights of `getKingSafety`; the lookup table has
no king entry, so a king falls back to the default 1. -/
def pressureValue : PT → ℚ
  | PT.q => 3
  | PT.r => 2
  | PT.b => 1.5
  | PT.n => 1.2
  | PT.p => 0.8
  | PT.k => 1

/-- `getKingSafety`: shield, placement, mobility and enemy-pressure
sub-scores combined, clamped, then smoothed by `0.7 x + 0.3 x^2` and clamped
again.  A missing king yields the neutral 0.5. -/
def getKingSafety (pos : Pos) (c : Side) : ℚ :=
  match findKing pos c with
  | none => 0.5
  | some king =>
      let kf := king.1
      let kr := king.2
      let frontRank := if c = Side.w then kr + 1 else kr - 1
      let shield := shieldCount pos c kf frontRank
      let shieldScore : ℚ := (shield : ℚ) / 3
      let isCastled :=
        if c = Side.w then (kf, kr) = ((6 : Int), (1 : Int)) ∨ (kf, kr) = ((2 : Int), (1 : Int))
        else (kf, kr) = ((6 : Int), (8 : Int)) ∨ (kf, kr) = ((2 : Int), (8 : Int))
      let rankSafety : ℚ :=
        if c = Side.w then 1 - ((kr : ℚ) - 1) / 7 else 1 - (8 - (kr : ℚ)) / 7
      let placement : ℚ :=
        if isCastled ∧ (0.66 : ℚ) ≤ shieldScore then 0.35 else rankSafety * 0.3
      let mobility : Nat :=
        (([-1, 0, 1] : List Int).flatMap (fun dr =>
          ([-1, 0, 1] : List Int).map (fun df => (dr, df)))).countP
          (fun d =>
            !(d.1 == 0 && d.2 == 0) &&
            isOnBoard (kf + d.2) (kr + d.1) &&
            (boardGet pos (kf + d.2) (kr + d.1)).isNone)
      let pressure : ℚ :=
        (([-3, -2, -1, 0, 1, 2, 3] : List Int).flatMap (fun dr =>
          ([-3, -2, -1, 0, 1, 2, 3] : List Int).map (fun df => (dr, df)))).foldl
          (fun (acc : ℚ) (d : Int × Int) =>
            if d.1 = 0 ∧ d.2 = 0 then acc
            else if isOnBoard (kf + d.2) (kr + d.1) then
              match boardGet pos (kf + d.2) (kr + d.1) with
              | some pc =>
                  if pc.color = enemySide c then
                    acc + pressureValue pc.ptype / ((d.1.natAbs : ℚ) + (d.2.natAbs : ℚ))
                  else acc
              | none => acc
            else acc)
          0
      let score : ℚ :=
        shieldScore * 0.45 + placement + ((mobility : ℚ) / 8) * 0.05 -
          min (pressure / 10) 0.25
      let finalScore := clamp score
      clamp (0.7 * finalScore + 0.3 * finalScore * finalScore)

/-! ## Pawn Structure metric (pawnStructure.js) -/

/-- A pawn record: file 0-7, rank 1-8 (the source also stores the square
name, recomputable from these). -/
structure Pawn where
  file : Int
  rank : Int
deriving DecidableEq, Repr

/-- Algebraic square name, e.g. (4, 4) to "e4"; used for the cache key. -/
def squareName (f r : Int) : String :=
  String.mk [Char.ofNat (97 + f.toNat)] ++ toString r

/-- `listPawns`: the pawns of the side in `board()` traversal order (rank 8 down
to 1, files a to h). -/
def listPawns (pos : Pos) (c : Side) : List Pawn :=
  boardScan.filterMap (fun s =>
    if squareHasPawn pos c s.1 s.2 then some ⟨s.1, s.2⟩ else none)

/-- `listEnemyPawns`. -/
def listEnemyPawns (pos : Pos) (c : Side) : List Pawn :=
  listPawns pos (enemySide c)

/-- Whether the side has any pawn on the given file (set membership of the
source function `filesWithPawns`). -/
def fileHasPawn (pos : Pos) (c : Side) (f : Int) : Bool :=
  (listPawns pos c).any (fun p => p.file == f)

/-- `filesWithPawns`: the distinct files holding a pawn of the side, sorted
ascending. -/
def filesWithPawns (pos : Pos) (c : Side) : List Int :=
  (((List.range 8).map (fun n => (n : Int)))).filter (fileHasPawn pos c)

/-- `forwardStep`: +1 for White, -1 for Black. -/
def forwardStep (c : Side) : Int :=
  if c = Side.w then 1 else -1

/-- `pawnCaptureDeltas`: the two capture offsets (df, dr). -/
def pawnCaptureDeltas (c : Side) : List (Int × Int) :=
  [(1, forwardStep c), (-1, forwardStep c)]

/-- `countPawns`. -/
def countPawns (pos : Pos) (c : Side) : Nat :=
  (listPawns pos c).length

/-- 1) `countIsolatedPawns`: pawns with no friendly pawn on either adjacent
file. -/
def countIsolatedPawns (pos : Pos) (c : Side) : Nat :=
  (listPawns pos c).countP (fun p =>
    !(fileHasPawn pos c (p.file - 1)) && !(fileHasPawn pos c (p.file + 1)))

/-- Number of pawns of the side on the given file. -/
def pawnsOnFile (pos : Pos) (c : Side) (f : Int) : Nat :=
  (listPawns pos c).countP (fun p => p.file == f)

/-- 2) `countDoubledPawns`: per file, every pawn beyond the first. -/
def countDoubledPawns (pos : Pos) (c : Side) : Nat :=
  (((List.range 8).map (fun n => (n : Int)))).foldl
    (fun acc f =>
      let n := pawnsOnFile pos c f
      if 2 ≤ n then acc + (n - 1) else acc)
    0

/-- 3) `countPawnIslands`: maximal runs of consecutive occupied files. -/
def countPawnIslands (pos : Pos) (c : Side) : Nat :=
  match filesWithPawns pos c with
  | [] => 0
  | f :: rest =>
      (rest.foldl
        (fun (acc : Nat × Int) g =>
          (if g ≠ acc.2 + 1 then acc.1 + 1 else acc.1, g))
        (1, f)).1

/-- Enemy pawn strictly ahead (toward the promotion rank of the side) on the given
file. -/
def enemyPawnAheadOnFile (pos : Pos) (c : Side) (f fromRank : Int) : Bool :=
  (listEnemyPawns pos c).any (fun q =>
    q.file == f && (if c = Side.w then fromRank < q.rank else q.rank < fromRank))

/-- Friendly pawn strictly ahead on the given file. -/
def friendAheadOnFile (pos : Pos) (c : Side) (f fromRank : Int) : Bool :=
  (listPawns pos c).any (fun q =>
    q.file == f && (if c = Side.w then fromRank < q.rank else q.rank < fromRank))

/-- 4) `countPassedPawns`: no enemy pawn ahead on the same or adjacent files,
and no friendly pawn ahead on the same file. -/
def countPassedPawns (pos : Pos) (c : Side) : Nat :=
  (listPawns pos c).countP (fun p =>
    let filesToCheck := ([p.file, p.file - 1, p.file + 1] : List Int).filter
      (fun f => 0 ≤ f && f ≤ 7)
    !(filesToCheck.any (fun f => enemyPawnAheadOnFile pos c f p.rank)) &&
    !(friendAheadOnFile pos c p.file p.rank))

/-- 11) `classifyFiles` half-open component: a file is half-open FOR a side
when the opposing side has a pawn there and the side itself has none. -/
def halfOpenFor (pos : Pos) (c : Side) (f : Int) : Bool :=
  fileHasPawn pos (enemySide c) f && !(fileHasPawn pos c f)

/-- `isBlockedByEnemyAhead` from `countCandidatePassedPawns`: the square one
step ahead is off the board or occupied by any piece. -/
def isBlockedByEnemyAhead (pos : Pos) (c : Side) (f r : Int) : Bool :=
  let r1 := r + forwardStep c
  if !(isOnBoard f r1) then true else (boardGet pos f r1).isSome

/-- `hasFriendlyPotentialSupport`: a friendly pawn on an adjacent file
strictly behind (its scan stops at rank 2 for White, rank 7 for Black). -/
def hasFriendlyPotentialSupport (pos : Pos) (c : Side) (f r : Int) : Bool :=
  ([-1, 1] : List Int).any (fun df =>
    let f2 := f + df
    if f2 < 0 ∨ 7 < f2 then false
    else if c = Side.w then
      (intsFromTo 2 (r - 1)).any (fun rr => squareHasPawn pos c f2 rr)
    else
      (intsFromTo (r + 1) 7).any (fun rr => squareHasPawn pos c f2 rr))

/-- 5) `countCandidatePassedPawns`: pawns on a file half-open for the side,
not blocked one step ahead, with potential support from behind. -/
def countCandidatePassedPawns (pos : Pos) (c : Side) : Nat :=
  (listPawns pos c).countP (fun p =>
    halfOpenFor pos c p.file &&
    !(isBlockedByEnemyAhead pos c p.file p.rank) &&
    hasFriendlyPotentialSupport pos c p.file p.rank)

/-- `pawnControls` membership from `countBackwardPawns`: the (on-board)
square is attacked by some pawn of the given side. -/
def pawnControlsSquare (pos : Pos) (c : Side) (f r : Int) : Bool :=
  isOnBoard f r &&
  (listPawns pos c).any (fun p =>
    (pawnCaptureDeltas c).any (fun d => p.file + d.1 == f && p.rank + d.2 == r))

/-- `canBeSupportedFromBehind` (textually identical in the source to
`hasFriendlyPotentialSupport`). -/
def canBeSupportedFromBehind (pos : Pos) (c : Side) (f r : Int) : Bool :=
  hasFriendlyPotentialSupport pos c f r

/-- 6) `countBackwardPawns`: stop square on board, not supportable from
behind, not defended by an own pawn, and attacked by an enemy pawn. -/
def countBackwardPawns (pos : Pos) (c : Side) : Nat :=
  (listPawns pos c).countP (fun p =>
    let stopR := p.rank + forwardStep c
    isOnBoard p.file stopR &&
    !(canBeSupportedFromBehind pos c p.file p.rank) &&
    !(pawnControlsSquare pos c p.file stopR) &&
    pawnControlsSquare pos (enemySide c) p.file stopR)

/-- Whether the side has an "advanced" pawn on the file (rank at least 4 for
White, at most 5 for Black), from `countHangingPawns`. -/
def advancedOnFile (pos : Pos) (c : Side) (f : Int) : Bool :=
  (listPawns pos c).any (fun p =>
    p.file == f && (if c = Side.w then 4 ≤ p.rank else p.rank ≤ 5))

/-- 7) `countHangingPawns`: adjacent-file pairs of advanced pawns whose outer
flanking files are half-open for the side (or off the board). -/
def countHangingPawns (pos : Pos) (c : Side) : Nat :=
  ((List.range 7).map (fun n => (n : Int))).countP (fun f =>
    let f2 := f + 1
    fileHasPawn pos c f && fileHasPawn pos c f2 &&
    advancedOnFile pos c f && advancedOnFile pos c f2 &&
    (if 0 ≤ f - 1 then halfOpenFor pos c (f - 1) else true) &&
    (if f2 + 1 ≤ 7 then halfOpenFor pos c (f2 + 1) else true))

/-- `defends` from `getPawnChains`: q stands one forward-diagonal step from
p, so p is defended-by/extends the chain at q... precisely: q is one file
away and one forward step ahead of p. -/
def defends (c : Side) (p q : Pawn) : Bool :=
  (q.file - p.file).natAbs == 1 && q.rank - p.rank == forwardStep c

/-- One pass of the chain-growing while-loop: scan the pawn list in order,
appending every unvisited pawn defended by the current chain tip (the tip
advances within the pass).  The chain is kept reversed (head = tip). -/
def chainPass (c : Side) (my : List Pawn) (chainRev visited : List Pawn) :
    List Pawn × List Pawn × Bool :=
  my.foldl
    (fun (st : List Pawn × List Pawn × Bool) r =>
      if st.2.1.contains r then st
      else
        match st.1 with
        | [] => st
        | last :: _ =>
            if defends c last r then (r :: st.1, r :: st.2.1, true) else st)
    (chainRev, visited, false)

/-- The chain-growing while-loop, with fuel; each productive pass consumes at
least one pawn of `my`, so `my.length + 1` passes suffice. -/
def growChain (c : Side) (my : List Pawn) :
    Nat → List Pawn → List Pawn → List Pawn × List Pawn
  | 0, chainRev, visited => (chainRev, visited)
  | fuel + 1, chainRev, visited =>
      let st := chainPass c my chainRev visited
      if st.2.2 then growChain c my fuel st.1 st.2.1 else (st.1, st.2.1)

/-- 8) `getPawnChains`: greedy chain extraction over the pawn list; only
chains of length greater than 1 are kept, in source order. -/
def getPawnChains (pos : Pos) (c : Side) : List (List Pawn) :=
  let my := listPawns pos c
  (my.foldl
    (fun (st : List (List Pawn) × List Pawn) p =>
      if st.2.contains p then st
      else
        let grown := growChain c my (my.length + 1) [p] (p :: st.2)
        if 1 < grown.1.length then (st.1 ++ [grown.1.reverse], grown.2)
        else (st.1, grown.2))
    ([], [])).1

/-- `countPawnChains`. -/
def countPawnChains (pos : Pos) (c : Side) : Nat :=
  (getPawnChains pos c).length

/-- `detectChainBases`: the first (undefended) pawn of each chain. -/
def detectChainBases (pos : Pos) (c : Side) : List Pawn :=
  (getPawnChains pos c).filterMap (fun chain => chain.head?)

/-- 9) `countPawnRams`: White pawns directly blocked by a Black pawn one rank
ahead on the same file (computed colour-independently in the source). -/
def countPawnRams (pos : Pos) : Nat :=
  (listPawns pos Side.w).countP (fun p => squareHasPawn pos Side.b p.file (p.rank + 1))

/-- 10) `countPawnLevers`: capture squares (per pawn, per diagonal) holding
an enemy pawn. -/
def countPawnLevers (pos : Pos) (c : Side) : Nat :=
  (listPawns pos c).foldl
    (fun acc p =>
      acc + (pawnCaptureDeltas c).countP (fun d =>
        isOnBoard (p.file + d.1) (p.rank + d.2) &&
        squareHasPawn pos (enemySide c) (p.file + d.1) (p.rank + d.2)))
    0

/-- Queenside (files a-c) pawn count. -/
def queensidePawnCount (pos : Pos) (c : Side) : Nat :=
  (listPawns pos c).countP (fun p => p.file ≤ 2)

/-- Kingside (files f-h) pawn count. -/
def kingsidePawnCount (pos : Pos) (c : Side) : Nat :=
  (listPawns pos c).countP (fun p => 5 ≤ p.file)

/-- 12) `detectPawnMajority` queenside component: strictly more pawns than
the opponent on files a-c. -/
def queensideMajority (pos : Pos) (c : Side) : Bool :=
  queensidePawnCount pos (enemySide c) < queensidePawnCount pos c

/-- `detectPawnMajority` kingside component. -/
def kingsideMajority (pos : Pos) (c : Side) : Bool :=
  kingsidePawnCount pos (enemySide c) < kingsidePawnCount pos c

/-- `detectMinority`: literally the negation of the majority flags. -/
def queensideMinority (pos : Pos) (c : Side) : Bool :=
  !(queensideMajority pos c)

/-- `detectMinority` kingside component. -/
def kingsideMinority (pos : Pos) (c : Side) : Bool :=
  !(kingsideMajority pos c)

/-- 13) `countOverAdvancedPawns`: pawns past the side-relative threshold
(rank 6+ for White, 3- for Black) with no supporting pawn behind on an
adjacent file. -/
def countOverAdvancedPawns (pos : Pos) (c : Side) : Nat :=
  (listPawns pos c).countP (fun p =>
    (if c = Side.w then 6 ≤ p.rank else p.rank ≤ 3) &&
    !(hasFriendlyPotentialSupport pos c p.file p.rank))

/-- 14) `countWeakPawns`: isolated + backward + over-advanced (not
deduplicated). -/
def countWeakPawns (pos : Pos) (c : Side) : Nat :=
  countIsolatedPawns pos c + countBackwardPawns pos c + countOverAdvancedPawns pos c

/-- 15) `countCentralDoubledPawns`: doubling restricted to files d and e. -/
def countCentralDoubledPawns (pos : Pos) (c : Side) : Nat :=
  ([3, 4] : List Int).foldl
    (fun acc f =>
      let n := pawnsOnFile pos c f
      if 2 ≤ n then acc + (n - 1) else acc)
    0

/-- `friendlyPawnCanGuardSquare` from `detectWeakSquares`: some friendly pawn
on an adjacent file could (now or after advancing) defend the square. -/
def friendlyPawnCanGuardSquare (pos : Pos) (c : Side) (f r : Int) : Bool :=
  ([-1, 1] : List Int).any (fun df =>
    let f2 := f - df
    let r2 := r - forwardStep c
    if !(isOnBoard f2 r2) then false
    else if c = Side.w then
      (intsFromTo 2 r2).any (fun rr => squareHasPawn pos c f2 rr)
    else
      (intsFromTo r2 7).any (fun rr => squareHasPawn pos c f2 rr))

/-- 16) `detectWeakSquares`: squares of the own four ranks of the side that no
friendly pawn could ever defend (as a list; the source returns a set whose
size is used). -/
def detectWeakSquares (pos : Pos) (c : Side) : List (Int × Int) :=
  ((if c = Side.w then [1, 2, 3, 4] else [8, 7, 6, 5] : List Int).flatMap
    (fun r => ((List.range 8).map (fun n => (n : Int))).filterMap (fun f =>
      if friendlyPawnCanGuardSquare pos c f r then none else some (f, r))))

/-- A pawn-structure cache entry: the already-computed score of each side,
when present. -/
structure PawnEntry where
  w : Option ℚ
  b : Option ℚ
deriving DecidableEq, Repr

/-- Read the slot of one side in a cache entry. -/
def PawnEntry.get : PawnEntry → Side → Option ℚ
  | e, Side.w => e.w
  | e, Side.b => e.b

/-- `{...prev, [color]: result}`: overwrite the slot of one side, preserving the
slot of the other side. -/
def PawnEntry.set : PawnEntry → Side → ℚ → PawnEntry
  | e, Side.w, v => { e with w := some v }
  | e, Side.b, v => { e with b := some v }

/-- The process-wide `_pawnTT` map, modelled as explicit threaded state. -/
abbrev Cache := List (String × PawnEntry)

/-- `Map.get`. -/
def cacheGet : Cache → String → Option PawnEntry
  | [], _ => none
  | (k, e) :: σ, k2 => if k = k2 then some e else cacheGet σ k2

/-- `computePawnKey`: sorted, comma-joined square names of the pawns of each
side, in the form "P:wp|bp". -/
def computePawnKey (pos : Pos) : String :=
  let wp := String.intercalate ","
    (((listPawns pos Side.w).map (fun p => squareName p.file p.rank)).mergeSort
      (fun a b => a ≤ b))
  let bp := String.intercalate ","
    (((listPawns pos Side.b).map (fun p => squareName p.file p.rank)).mergeSort
      (fun a b => a ≤ b))
  "P:" ++ wp ++ "|" ++ bp

/-- The flank bonus of `getPawnStructureForColor`: +0.02 per flank majority,
-0.02 per flank minority (minority being the literal negation of majority). -/
def flankBonus (pos : Pos) (c : Side) : ℚ :=
  (if queensideMajority pos c then 0.02 else 0) +
  (if kingsideMajority pos c then 0.02 else 0) -
  (if queensideMinority pos c then 0.02 else 0) -
  (if kingsideMinority pos c then 0.02 else 0)

/-- The divisor `total = countPawns || 1` of `getPawnStructureForColor`. -/
def pawnTotal (pos : Pos) (c : Side) : ℚ :=
  if countPawns pos c = 0 then 1 else (countPawns pos c : ℚ)

/-- The raw weighted feature sum of `getPawnStructureForColor` (before
clamping). -/
def pawnScoreRaw (pos : Pos) (c : Side) : ℚ :=
  1 - 0.4 * ((countIsolatedPawns pos c : ℚ) / pawnTotal pos c)
    - 0.55 * ((countDoubledPawns pos c : ℚ) / pawnTotal pos c)
    - 0.25 * ((countBackwardPawns pos c : ℚ) / pawnTotal pos c)
    - 0.2 * ((countOverAdvancedPawns pos c : ℚ) / pawnTotal pos c)
    - 0.2 * ((countCentralDoubledPawns pos c : ℚ) / pawnTotal pos c)
    - 0.1 * (max 0 ((countPawnIslands pos c : ℚ) - 1) / 4)
    - 0.05 * (((detectChainBases pos c).length : ℚ) / pawnTotal pos c)
    - 0.1 * ((countWeakPawns pos c : ℚ) / pawnTotal pos c)
    - 0.1 * (((detectWeakSquares pos c).length : ℚ) / 8)
    - 0.05 * ((countHangingPawns pos c : ℚ) / 4)
    - 0.1 * ((countPawnRams pos : ℚ) / 8)
    + 0.4 * ((countPassedPawns pos c : ℚ) / pawnTotal pos c)
    + 0.15 * ((countCandidatePassedPawns pos c : ℚ) / pawnTotal pos c)
    + 0.1 * ((countPawnChains pos c : ℚ) / 4)
    + 0.05 * ((countPawnLevers pos c : ℚ) / pawnTotal pos c)
    + flankBonus pos c

/-- The cache-miss computation of `getPawnStructureForColor`: the clamped
weighted feature sum. -/
def pawnStructureFresh (pos : Pos) (c : Side) : ℚ :=
  clamp (pawnScoreRaw pos c)

/-- The cache-hit test `cached && typeof cached[color] === "number"`: the
cached score of the given side under the pawn-layout key, when present. -/
def entryVal (σ : Cache) (pos : Pos) (c : Side) : Option ℚ :=
  (cacheGet σ (computePawnKey pos)).bind (fun e => PawnEntry.get e c)

/-- `getPawnStructureForColor`, with the global cache threaded explicitly:
on a hit return the clamped cached number; on a miss compute, merge into the
entry under the pawn-layout key (preserving the slot of the other side) and
return. -/
def getPawnStructureForColor (pos : Pos) (c : Side) (σ : Cache) : ℚ × Cache :=
  match entryVal σ pos c with
  | some v => (clamp v, σ)
  | none =>
      let result := pawnStructureFresh pos c
      let prev := (cacheGet σ (computePawnKey pos)).getD ⟨none, none⟩
      (result, (computePawnKey pos, prev.set c result) :: σ)

/-! ## Piece Activity metric (activity.js) -/

/-- `isCentralSquare`: files d-e, ranks 4-5 (the central 2x2). -/
def isCentralSquare (f r : Int) : Bool :=
  3 ≤ f && f ≤ 4 && 4 ≤ r && r ≤ 5

/-- `getPieceActivity`: non-pawn legal-move count (side to move forced to the
queried side) normalized by 40 and capped, plus 0.1 per knight or bishop on a
central square, clamped. -/
def getPieceActivity (pos : Pos) (c : Side) : ℚ :=
  let nonPawn := ((pos.moves c).filter (fun m => m.piece ≠ PT.p)).length
  let base : ℚ := min ((nonPawn : ℚ) / 40) 1
  let score := boardScan.foldl
    (fun (acc : ℚ) s =>
      match boardGet pos s.1 s.2 with
      | some pc =>
          if pc.color = c ∧ pc.ptype ≠ PT.p ∧ isCentralSquare s.1 s.2 ∧
              (pc.ptype = PT.n ∨ pc.ptype = PT.b) then
            acc + 0.1
          else acc
      | none => acc)
    base
  clamp score

/-! ## Space metric (space.js) -/

/-- Presence weights of the Space metric. -/
def spaceWeight : PT → ℚ
  | PT.p => 1
  | PT.n => 0.8
  | PT.b => 0.8
  | PT.r => 0.6
  | PT.q => 0.5
  | PT.k => 0.2

/-- `getSpaceForColor`: 0.55 * reach (distinct non-king move destinations in
the opposing half, / 28, capped) + 0.30 * presence (weight fraction in the
opposing half) + 0.15 * foothold (central-file occupations in the
opposing half over all central-file occupations), clamped. -/
def getSpaceForColor (pos : Pos) (c : Side) : ℚ :=
  let oppHalfRankMin : Int := if c = Side.w then 5 else 1
  let oppHalfRankMax : Int := if c = Side.w then 8 else 4
  let reachSquares :=
    ((((pos.moves c).filter (fun m => m.piece ≠ PT.k)).filter
      (fun m => oppHalfRankMin ≤ m.toRank && m.toRank ≤ oppHalfRankMax)).map
        (fun m => (m.toFile, m.toRank))).dedup
  let reachScore : ℚ := min ((reachSquares.length : ℚ) / 28) 1
  let pres := boardScan.foldl
    (fun (acc : ℚ × ℚ) s =>
      match boardGet pos s.1 s.2 with
      | some pc =>
          if pc.color = c then
            let wgt := spaceWeight pc.ptype
            let inOppHalf := if c = Side.w then (5 : Int) ≤ s.2 else s.2 ≤ (4 : Int)
            ((if inOppHalf then acc.1 + wgt else acc.1), acc.2 + wgt)
          else acc
      | none => acc)
    (0, 0)
  let presenceScore : ℚ := if 0 < pres.2 then pres.1 / pres.2 else 0
  let foot := boardScan.foldl
    (fun (acc : Nat × Nat) s =>
      match boardGet pos s.1 s.2 with
      | some pc =>
          if pc.color = c ∧ (2 : Int) ≤ s.1 ∧ s.1 ≤ (5 : Int) then
            let inOppHalf := if c = Side.w then (5 : Int) ≤ s.2 else s.2 ≤ (4 : Int)
            ((if inOppHalf then acc.1 + 1 else acc.1), acc.2 + 1)
          else acc
      | none => acc)
    (0, 0)
  let footholdScore : ℚ := if 0 < foot.2 then (foot.1 : ℚ) / (foot.2 : ℚ) else 0
  clamp (0.55 * reachScore + 0.3 * presenceScore + 0.15 * footholdScore)

/-! ## Aggregator (computeKMAPS.js) -/

/-- The JavaScript argument of the aggregator: a string, or any non-string value
(the source rejects the latter with a typeof check). -/
inductive JSVal
  | str (s : String)
  | nonstring

/-- One row of the aggregator output. -/
structure MetricRecord where
  metric : String
  white : ℚ
  black : ℚ
deriving DecidableEq, Repr

/-- `computeKMAPS`: validate the input, decode it through the external
adapter (`parse` stands for `new Chess(fen)`, yielding none exactly when the
constructor throws), and on success assemble the five fixed-order records;
on any failure return the empty list.  The pawn cache is threaded through. -/
def computeKMAPS (parse : String → Option Pos) (input : JSVal) (σ : Cache) :
    List MetricRecord × Cache :=
  match input with
  | JSVal.nonstring => ([], σ)
  | JSVal.str s =>
      if s = "" then ([], σ)
      else
        match parse s with
        | none => ([], σ)
        | some game =>
            let material := getMaterialBoth game
            let kingW := getKingSafety game Side.w
            let kingB := getKingSafety game Side.b
            let actW := getPieceActivity game Side.w
            let actB := getPieceActivity game Side.b
            let pawnW := getPawnStructureForColor game Side.w σ
            let pawnB := getPawnStructureForColor game Side.b pawnW.2
            let spaceW := getSpaceForColor game Side.w
            let spaceB := getSpaceForColor game Side.b
            ([⟨"Material", material.1, material.2⟩,
              ⟨"King Safety", kingW, kingB⟩,
              ⟨"Activity", actW, actB⟩,
              ⟨"Pawn Structure", pawnW.1, pawnB.1⟩,
              ⟨"Space", spaceW, spaceB⟩], pawnB.2)

/-! ## Witness positions -/

/-- A decodable but empty position: no pieces, no legal moves. -/
def emptyPos : Pos :=
  ⟨fun _ _ => none, fun _ => []⟩

/-- White pawns on e4 and d3, nothing else. -/
def posTwoPawns : Pos :=
  ⟨fun f r =>
    if f = 4 ∧ r = 4 then some ⟨PT.p, Side.w⟩
    else if f = 3 ∧ r = 3 then some ⟨PT.p, Side.w⟩
    else none,
   fun _ => []⟩

/-- White king on a1 with a white pawn on a2, nothing else. -/
def posEdgeKing : Pos :=
  ⟨fun f r =>
    if f = 0 ∧ r = 1 then some ⟨PT.k, Side.w⟩
    else if f = 0 ∧ r = 2 then some ⟨PT.p, Side.w⟩
    else none,
   fun _ => []⟩

/-! ## Basic lemmas -/

theorem clamp_nonneg (x : ℚ) : 0 ≤ clamp x :=
  le_max_left 0 _

theorem clamp_le_one (x : ℚ) : clamp x ≤ 1 :=
  max_le (by norm_num) (min_le_left 1 x)

theorem clamp_of_mem {x : ℚ} (h0 : 0 ≤ x) (h1 : x ≤ 1) : clamp x = x := by
  unfold clamp
  rw [min_eq_right h1, max_eq_right h0]

theorem clamp_clamp (x : ℚ) : clamp (clamp x) = clamp x :=
  clamp_of_mem (clamp_nonneg x) (clamp_le_one x)

theorem getMaterialBoth_fst (pos : Pos) :
    (getMaterialBoth pos).1 =
      clamp (((materialTotals pos).1 - (materialTotals pos).2 + 39) / 78) :=
  rfl

theorem getMaterialBoth_snd (pos : Pos) :
    (getMaterialBoth pos).2 =
      clamp ((-((materialTotals pos).1 - (materialTotals pos).2) + 39) / 78) :=
  rfl

theorem getKingSafety_shape (pos : Pos) (c : Side) :
    getKingSafety pos c = 0.5 ∨ ∃ q, getKingSafety pos c = clamp q := by
  unfold getKingSafety
  cases findKing pos c with
  | none => exact Or.inl rfl
  | some king => exact Or.inr ⟨_, rfl⟩

theorem getPieceActivity_shape (pos : Pos) (c : Side) :
    ∃ q, getPieceActivity pos c = clamp q :=
  ⟨_, rfl⟩

theorem getSpaceForColor_shape (pos : Pos) (c : Side) :
    ∃ q, getSpaceForColor pos c = clamp q :=
  ⟨_, rfl⟩

theorem getPawnStructureForColor_shape (pos : Pos) (c : Side) (σ : Cache) :
    ∃ q, (getPawnStructureForColor pos c σ).1 = clamp q := by
  unfold getPawnStructureForColor
  cases entryVal σ pos c with
  | none => exact ⟨pawnScoreRaw pos c, rfl⟩
  | some v => exact ⟨v, rfl⟩

/-! ## Claim theorems -/

/-- C1: for every input to computeKMAPS that is not a non-empty string, or
whose decoding as a position fails, computeKMAPS returns the empty list; it
is a total function (it never raises), and it never returns partial data:
the result is the empty list or all five metric records. -/
theorem computeKMAPS_invalid_input_empty_and_total
    (parse : String → Option Pos) (input : JSVal) (σ : Cache) :
    ((∀ s, input = JSVal.str s → s ≠ "" → parse s = none) →
      (computeKMAPS parse input σ).1 = []) ∧
    ((computeKMAPS parse input σ).1 = [] ∨
      ((computeKMAPS parse input σ).1).length = 5) := by
  constructor
  · intro h
    cases input with
    | nonstring => rfl
    | str s =>
        unfold computeKMAPS
        by_cases hs : s = ""
        · simp [hs]
        · simp [hs, h s rfl hs]
  · cases input with
    | nonstring => exact Or.inl rfl
    | str s =>
        unfold computeKMAPS
        by_cases hs : s = ""
        · simp [hs]
        · cases hp : parse s with
          | none => simp [hs, hp]
          | some game => simp [hs, hp]

/-- C1 witness: a string that fails to decode yields the empty list. -/
theorem computeKMAPS_invalid_input_witness :
    (computeKMAPS (fun _ => none) (JSVal.str "bogus") []).1 = [] :=
  (computeKMAPS_invalid_input_empty_and_total (fun _ => none)
    (JSVal.str "bogus") []).1 (fun _ _ _ => rfl)

/-- C2: for every input string that decodes successfully, computeKMAPS
returns exactly 5 records whose metric names appear in the fixed order
Material, King Safety, Activity, Pawn Structure, Space (each record carries
one White and one Black score field by construction of MetricRecord). -/
theorem computeKMAPS_fixed_five_records
    (parse : String → Option Pos) (σ : Cache) (s : String) (game : Pos)
    (hs : s ≠ "") (hp : parse s = some game) :
    ((computeKMAPS parse (JSVal.str s) σ).1).map (fun rec => rec.metric) =
      ["Material", "King Safety", "Activity", "Pawn Structure", "Space"] := by
  unfold computeKMAPS
  simp [hs, hp]

/-- C2 witness: the record names at a concrete decodable input. -/
theorem computeKMAPS_fixed_five_records_witness :
    ((computeKMAPS (fun _ => some emptyPos) (JSVal.str "8/8") []).1).map
      (fun rec => rec.metric) =
      ["Material", "King Safety", "Activity", "Pawn Structure", "Space"] :=
  computeKMAPS_fixed_five_records (fun _ => some emptyPos) [] "8/8" emptyPos
    (by decide) rfl

/-- C3: for every decoded position and both sides, every one of the five
metric functions (Material, King Safety, Activity, Pawn Structure, Space)
returns a score lying in [0,1] inclusive. -/
theorem metric_scores_in_unit_interval (pos : Pos) (c : Side) (σ : Cache) :
    (0 ≤ (getMaterialBoth pos).1 ∧ (getMaterialBoth pos).1 ≤ 1) ∧
    (0 ≤ (getMaterialBoth pos).2 ∧ (getMaterialBoth pos).2 ≤ 1) ∧
    (0 ≤ getKingSafety pos c ∧ getKingSafety pos c ≤ 1) ∧
    (0 ≤ getPieceActivity pos c ∧ getPieceActivity pos c ≤ 1) ∧
    (0 ≤ (getPawnStructureForColor pos c σ).1 ∧
      (getPawnStructureForColor pos c σ).1 ≤ 1) ∧
    (0 ≤ getSpaceForColor pos c ∧ getSpaceForColor pos c ≤ 1) := by
  refine ⟨?_, ?_, ?_, ?_, ?_, ?_⟩
  · rw [getMaterialBoth_fst]
    exact ⟨clamp_nonneg _, clamp_le_one _⟩
  · rw [getMaterialBoth_snd]
    exact ⟨clamp_nonneg _, clamp_le_one _⟩
  · rcases getKingSafety_shape pos c with h | ⟨q, h⟩
    · rw [h]
      norm_num
    · rw [h]
      exact ⟨clamp_nonneg _, clamp_le_one _⟩
  · obtain ⟨q, h⟩ := getPieceActivity_shape pos c
    rw [h]
    exact ⟨clamp_nonneg _, clamp_le_one _⟩
  · obtain ⟨q, h⟩ := getPawnStructureForColor_shape pos c σ
    rw [h]
    exact ⟨clamp_nonneg _, clamp_le_one _⟩
  · obtain ⟨q, h⟩ := getSpaceForColor_shape pos c
    rw [h]
    exact ⟨clamp_nonneg _, clamp_le_one _⟩

/-- C8: for every decoded position with no king of the queried side,
getKingSafety returns exactly the neutral 0.5 and does not fail. -/
theorem kingSafety_missing_king_neutral (pos : Pos) (c : Side)
    (h : findKing pos c = none) : getKingSafety pos c = 0.5 := by
  unfold getKingSafety
  rw [h]

/-- C8 witness: the empty position has no White king and scores 0.5. -/
theorem kingSafety_missing_king_witness :
    findKing emptyPos Side.w = none ∧ getKingSafety emptyPos Side.w = 0.5 :=
  ⟨by decide, kingSafety_missing_king_neutral emptyPos Side.w (by decide)⟩

theorem pieceValue_nonneg (t : PT) : 0 ≤ pieceValue t := by
  cases t <;> norm_num [pieceValue]

theorem material_foldl_ge (pos : Pos) (l : List (Int × Int)) (a : ℚ × ℚ) :
    a.1 ≤ (l.foldl
      (fun acc s =>
        match boardGet pos s.1 s.2 with
        | some pc =>
            if pc.color = Side.w then (acc.1 + pieceValue pc.ptype, acc.2)
            else (acc.1, acc.2 + pieceValue pc.ptype)
        | none => acc)
      a).1 ∧
    a.2 ≤ (l.foldl
      (fun acc s =>
        match boardGet pos s.1 s.2 with
        | some pc =>
            if pc.color = Side.w then (acc.1 + pieceValue pc.ptype, acc.2)
            else (acc.1, acc.2 + pieceValue pc.ptype)
        | none => acc)
      a).2 := by
  induction l generalizing a with
  | nil => exact ⟨le_refl _, le_refl _⟩
  | cons x xs ih =>
      simp only [List.foldl_cons]
      have hstep :
          a.1 ≤ (match boardGet pos x.1 x.2 with
            | some pc =>
                if pc.color = Side.w then (a.1 + pieceValue pc.ptype, a.2)
                else (a.1, a.2 + pieceValue pc.ptype)
            | none => a).1 ∧
          a.2 ≤ (match boardGet pos x.1 x.2 with
            | some pc =>
                if pc.color = Side.w then (a.1 + pieceValue pc.ptype, a.2)
                else (a.1, a.2 + pieceValue pc.ptype)
            | none => a).2 := by
        cases boardGet pos x.1 x.2 with
        | none => exact ⟨le_refl _, le_refl _⟩
        | some pc =>
            dsimp only
            by_cases hc : pc.color = Side.w
            · rw [if_pos hc]
              exact ⟨le_add_of_nonneg_right (pieceValue_nonneg pc.ptype), le_refl _⟩
            · rw [if_neg hc]
              exact ⟨le_refl _, le_add_of_nonneg_right (pieceValue_nonneg pc.ptype)⟩
      obtain ⟨h1, h2⟩ := ih (match boardGet pos x.1 x.2 with
        | some pc =>
            if pc.color = Side.w then (a.1 + pieceValue pc.ptype, a.2)
            else (a.1, a.2 + pieceValue pc.ptype)
        | none => a)
      exact ⟨le_trans hstep.1 h1, le_trans hstep.2 h2⟩

theorem materialTotals_nonneg (pos : Pos) :
    0 ≤ (materialTotals pos).1 ∧ 0 ≤ (materialTotals pos).2 := by
  unfold materialTotals
  exact material_foldl_ge pos boardScan (0, 0)

/-- C4: for every position in which each side has total material at most 39,
the two Material scores sum to exactly 1, and with equal material both sides
score exactly 0.5. -/
theorem material_scores_zero_sum (pos : Pos)
    (hw : (materialTotals pos).1 ≤ 39) (hb : (materialTotals pos).2 ≤ 39) :
    (getMaterialBoth pos).1 + (getMaterialBoth pos).2 = 1 ∧
    ((materialTotals pos).1 = (materialTotals pos).2 →
      (getMaterialBoth pos).1 = 1 / 2 ∧ (getMaterialBoth pos).2 = 1 / 2) := by
  obtain ⟨hw0, hb0⟩ := materialTotals_nonneg pos
  rw [getMaterialBoth_fst, getMaterialBoth_snd]
  have h1 : (0 : ℚ) ≤ ((materialTotals pos).1 - (materialTotals pos).2 + 39) / 78 := by
    apply div_nonneg _ (by norm_num)
    linarith
  have h2 : ((materialTotals pos).1 - (materialTotals pos).2 + 39) / 78 ≤ 1 := by
    rw [div_le_one (by norm_num : (0 : ℚ) < 78)]
    linarith
  have h3 : (0 : ℚ) ≤ (-((materialTotals pos).1 - (materialTotals pos).2) + 39) / 78 := by
    apply div_nonneg _ (by norm_num)
    linarith
  have h4 : (-((materialTotals pos).1 - (materialTotals pos).2) + 39) / 78 ≤ 1 := by
    rw [div_le_one (by norm_num : (0 : ℚ) < 78)]
    linarith
  rw [clamp_of_mem h1 h2, clamp_of_mem h3 h4]
  constructor
  · field_simp
    ring
  · intro he
    rw [he]
    norm_num

/-- C4 witness: the empty position has material (0, 0), within bounds, and
the scores are 0.5 each with sum 1. -/
theorem material_scores_zero_sum_witness :
    ((materialTotals emptyPos).1 ≤ 39 ∧ (materialTotals emptyPos).2 ≤ 39) ∧
    (getMaterialBoth emptyPos).1 + (getMaterialBoth emptyPos).2 = 1 ∧
    (getMaterialBoth emptyPos).1 = 1 / 2 ∧ (getMaterialBoth emptyPos).2 = 1 / 2 := by
  refine ⟨⟨by decide, by decide⟩, ?_⟩
  obtain ⟨hsum, heq⟩ := material_scores_zero_sum emptyPos (by decide) (by decide)
  exact ⟨hsum, heq (by decide)⟩

/-- The weighted pawn-structure feature sum exactly as the specification
words it, with `total` equal to the pawn count of the side with minimum 1. -/
def pawnScoreSpec (pos : Pos) (c : Side) : ℚ :=
  1 - 0.4 * ((countIsolatedPawns pos c : ℚ) / max 1 (countPawns pos c : ℚ))
    - 0.55 * ((countDoubledPawns pos c : ℚ) / max 1 (countPawns pos c : ℚ))
    - 0.25 * ((countBackwardPawns pos c : ℚ) / max 1 (countPawns pos c : ℚ))
    - 0.2 * ((countOverAdvancedPawns pos c : ℚ) / max 1 (countPawns pos c : ℚ))
    - 0.2 * ((countCentralDoubledPawns pos c : ℚ) / max 1 (countPawns pos c : ℚ))
    - 0.1 * (max 0 ((countPawnIslands pos c : ℚ) - 1) / 4)
    - 0.05 * (((detectChainBases pos c).length : ℚ) / max 1 (countPawns pos c : ℚ))
    - 0.1 * ((countWeakPawns pos c : ℚ) / max 1 (countPawns pos c : ℚ))
    - 0.1 * (((detectWeakSquares pos c).length : ℚ) / 8)
    - 0.05 * ((countHangingPawns pos c : ℚ) / 4)
    - 0.1 * ((countPawnRams pos : ℚ) / 8)
    + 0.4 * ((countPassedPawns pos c : ℚ) / max 1 (countPawns pos c : ℚ))
    + 0.15 * ((countCandidatePassedPawns pos c : ℚ) / max 1 (countPawns pos c : ℚ))
    + 0.1 * ((countPawnChains pos c : ℚ) / 4)
    + 0.05 * ((countPawnLevers pos c : ℚ) / max 1 (countPawns pos c : ℚ))
    + flankBonus pos c

theorem pawnTotal_eq_max (pos : Pos) (c : Side) :
    pawnTotal pos c = max 1 (countPawns pos c : ℚ) := by
  unfold pawnTotal
  rcases Nat.eq_zero_or_pos (countPawns pos c) with h0 | h0
  · rw [if_pos h0, h0]
    norm_num
  · rw [if_neg (Nat.pos_iff_ne_zero.mp h0)]
    rw [max_eq_right]
    exact_mod_cast h0

/-- C5: on a pawn-structure cache miss, getPawnStructureForColor returns the
clamp to [0,1] of the weighted feature sum with the documented weights, where
total is the pawn count of the side with minimum 1 and flankBonus contributes
plus or minus 0.02 per flank majority or minority. -/
theorem pawn_structure_miss_formula (pos : Pos) (c : Side) (σ : Cache)
    (h : entryVal σ pos c = none) :
    (getPawnStructureForColor pos c σ).1 = clamp (pawnScoreSpec pos c) := by
  unfold getPawnStructureForColor
  rw [h]
  show pawnStructureFresh pos c = clamp (pawnScoreSpec pos c)
  unfold pawnStructureFresh
  congr 1
  unfold pawnScoreRaw pawnScoreSpec
  rw [pawnTotal_eq_max]

/-- C5 witness: the empty cache misses, and the formula holds at a concrete
position. -/
theorem pawn_structure_miss_formula_witness :
    entryVal ([] : Cache) posTwoPawns Side.w = none ∧
    (getPawnStructureForColor posTwoPawns Side.w ([] : Cache)).1 =
      clamp (pawnScoreSpec posTwoPawns Side.w) :=
  ⟨rfl, pawn_structure_miss_formula posTwoPawns Side.w ([] : Cache) rfl⟩

theorem countCandidatePassedPawns_eq_zero (pos : Pos) (c : Side) :
    countCandidatePassedPawns pos c = 0 := by
  unfold countCandidatePassedPawns
  rw [List.countP_eq_zero]
  intro p hp
  have hfile : fileHasPawn pos c p.file = true := by
    unfold fileHasPawn
    rw [List.any_eq_true]
    exact ⟨p, hp, by simp⟩
  simp [halfOpenFor, hfile]

/-- Modelled from the claim wording of C6: the number of pawns of the side
that sit on a file where the opponent has no pawn and the friend does, are
not immediately blocked one step ahead, and have potential support from a
friendly pawn on an adjacent file behind them. -/
def candidatePassedSpec (pos : Pos) (c : Side) : Nat :=
  (listPawns pos c).countP (fun p =>
    !(fileHasPawn pos (enemySide c) p.file) && fileHasPawn pos c p.file &&
    !(isBlockedByEnemyAhead pos c p.file p.rank) &&
    hasFriendlyPotentialSupport pos c p.file p.rank)

/-- C6 counterexample: with White pawns on e4 and d3 only, the pawn on e4
satisfies every condition of the claim (spec count 1), but the code counts 0
candidate passed pawns, because the half-open-file set it consults can never
contain the file of an own pawn. -/
theorem candidate_passed_claim_counterexample :
    countCandidatePassedPawns posTwoPawns Side.w = 0 ∧
    candidatePassedSpec posTwoPawns Side.w = 1 ∧
    countCandidatePassedPawns posTwoPawns Side.w ≠
      candidatePassedSpec posTwoPawns Side.w := by
  refine ⟨by decide, by decide, ?_⟩
  decide

/-- C6 amended: the candidate-passed count used by the Pawn Structure metric
is 0 for every position and side, because the file-classification set it
consults (files half-open FOR the side, i.e. holding only opposing pawns)
can never contain the file of one of the own pawns of the side. -/
theorem candidate_passed_always_zero (pos : Pos) (c : Side) :
    countCandidatePassedPawns pos c = 0 :=
  countCandidatePassedPawns_eq_zero pos c

/-- C10: when the king of the queried side stands on the a-file or h-file,
the pawn-shield loop clips the off-board file offset back onto the board, so
the square directly ahead of the king on its own file is probed twice: a
friendly pawn there contributes 2 to the shield count (normalized by 3 in
getKingSafety), while a pawn on the single adjacent file contributes 1. -/
theorem edge_file_shield_double_probe (pos : Pos) (c : Side) (kf kr : Int)
    (hk : findKing pos c = some (kf, kr)) (hf : kf = 0 ∨ kf = 7) :
    shieldCount pos c kf (if c = Side.w then kr + 1 else kr - 1) =
      2 * (if squareHasPawn pos c kf (if c = Side.w then kr + 1 else kr - 1)
        then 1 else 0) +
      (if squareHasPawn pos c (if kf = 0 then 1 else 6)
          (if c = Side.w then kr + 1 else kr - 1) then 1 else 0) := by
  rcases hf with h | h <;> subst h
  · have e1 : max (0 : Int) (min 7 (0 + -1)) = 0 := by decide
    have e2 : max (0 : Int) (min 7 (0 + 0)) = 0 := by decide
    have e3 : max (0 : Int) (min 7 (0 + 1)) = 1 := by decide
    simp only [shieldCount, List.foldl_cons, List.foldl_nil, e1, e2, e3]
    by_cases hA : squareHasPawn pos c 0 (if c = Side.w then kr + 1 else kr - 1) <;>
      by_cases hB : squareHasPawn pos c 1 (if c = Side.w then kr + 1 else kr - 1) <;>
        simp [hA, hB]
  · have e1 : max (0 : Int) (min 7 (7 + -1)) = 6 := by decide
    have e2 : max (0 : Int) (min 7 (7 + 0)) = 7 := by decide
    have e3 : max (0 : Int) (min 7 (7 + 1)) = 7 := by decide
    simp only [shieldCount, List.foldl_cons, List.foldl_nil, e1, e2, e3]
    by_cases hA : squareHasPawn pos c 7 (if c = Side.w then kr + 1 else kr - 1) <;>
      by_cases hB : squareHasPawn pos c 6 (if c = Side.w then kr + 1 else kr - 1) <;>
        simp [hA, hB]

/-- C10 witness: White king on a1 with a single pawn on a2 gives shield
count 2. -/
theorem edge_file_shield_witness :
    findKing posEdgeKing Side.w = some (0, 1) ∧
    shieldCount posEdgeKing Side.w 0 2 = 2 := by
  refine ⟨by decide, ?_⟩
  have h := edge_file_shield_double_probe posEdgeKing Side.w 0 1 (by decide)
    (Or.inl rfl)
  norm_num at h
  rw [h]
  decide

theorem PawnEntry.get_set_same (e : PawnEntry) (c : Side) (v : ℚ) :
    (e.set c v).get c = some v := by
  cases c <;> rfl

theorem PawnEntry.get_set_other (e : PawnEntry) {c c2 : Side} (h : c2 ≠ c)
    (v : ℚ) : (e.set c v).get c2 = e.get c2 := by
  cases c <;> cases c2 <;> first | exact absurd rfl h | rfl

theorem cacheGet_cons (k : String) (e : PawnEntry) (σ : Cache) (k2 : String) :
    cacheGet ((k, e) :: σ) k2 = if k = k2 then some e else cacheGet σ k2 :=
  rfl

theorem getPawnStructureForColor_fst (pos : Pos) (c : Side) (σ : Cache) :
    (getPawnStructureForColor pos c σ).1 =
      match entryVal σ pos c with
      | some v => clamp v
      | none => pawnStructureFresh pos c := by
  unfold getPawnStructureForColor
  cases entryVal σ pos c <;> rfl

theorem entryVal_after_other (pos : Pos) (c c2 : Side) (σ : Cache)
    (hne : c2 ≠ c) :
    entryVal ((getPawnStructureForColor pos c σ).2) pos c2 =
      entryVal σ pos c2 := by
  unfold getPawnStructureForColor
  cases h : entryVal σ pos c with
  | some v => rfl
  | none =>
      show entryVal ((computePawnKey pos,
        ((cacheGet σ (computePawnKey pos)).getD ⟨none, none⟩).set c
          (pawnStructureFresh pos c)) :: σ) pos c2 = entryVal σ pos c2
      unfold entryVal
      rw [cacheGet_cons, if_pos rfl, Option.some_bind,
        PawnEntry.get_set_other _ hne]
      cases cacheGet σ (computePawnKey pos) with
      | some e => rfl
      | none => cases c2 <;> rfl

theorem entryVal_after_same (pos : Pos) (c : Side) (σ : Cache) :
    ∃ v, entryVal ((getPawnStructureForColor pos c σ).2) pos c = some v ∧
      clamp v = (getPawnStructureForColor pos c σ).1 := by
  unfold getPawnStructureForColor
  cases h : entryVal σ pos c with
  | some v => exact ⟨v, h, rfl⟩
  | none =>
      refine ⟨pawnStructureFresh pos c, ?_, ?_⟩
      · show entryVal ((computePawnKey pos,
          ((cacheGet σ (computePawnKey pos)).getD ⟨none, none⟩).set c
            (pawnStructureFresh pos c)) :: σ) pos c = some (pawnStructureFresh pos c)
        unfold entryVal
        rw [cacheGet_cons, if_pos rfl, Option.some_bind, PawnEntry.get_set_same]
      · show clamp (clamp (pawnScoreRaw pos c)) = clamp (pawnScoreRaw pos c)
        exact clamp_clamp _

/-- C7: calling computeKMAPS twice in succession with the same encoding
string yields identical results for both calls; the pawn-structure cache
write performed by the first call does not alter the value returned by the
second call. -/
theorem computeKMAPS_idempotent (parse : String → Option Pos) (s : String)
    (σ : Cache) :
    (computeKMAPS parse (JSVal.str s)
      ((computeKMAPS parse (JSVal.str s) σ).2)).1 =
      (computeKMAPS parse (JSVal.str s) σ).1 := by
  unfold computeKMAPS
  by_cases hs : s = ""
  · simp [hs]
  · simp only [if_neg hs]
    cases hp : parse s with
    | none => rfl
    | some game =>
        dsimp only
        obtain ⟨v, hv, hcv⟩ := entryVal_after_same game Side.w σ
        obtain ⟨u, hu, hcu⟩ := entryVal_after_same game Side.b
          ((getPawnStructureForColor game Side.w σ).2)
        have hw2 : entryVal ((getPawnStructureForColor game Side.b
            ((getPawnStructureForColor game Side.w σ).2)).2) game Side.w =
            some v := by
          rw [entryVal_after_other game Side.b Side.w _ (by simp)]
          exact hv
        have hwval : (getPawnStructureForColor game Side.w
            ((getPawnStructureForColor game Side.b
              ((getPawnStructureForColor game Side.w σ).2)).2)).1 =
            (getPawnStructureForColor game Side.w σ).1 := by
          rw [getPawnStructureForColor_fst, hw2, ← hcv]
        have hb2 : entryVal ((getPawnStructureForColor game Side.w
            ((getPawnStructureForColor game Side.b
              ((getPawnStructureForColor game Side.w σ).2)).2)).2) game Side.b =
            some u := by
          rw [entryVal_after_other game Side.w Side.b _ (by simp)]
          exact hu
        have hbval : (getPawnStructureForColor game Side.b
            ((getPawnStructureForColor game Side.w
              ((getPawnStructureForColor game Side.b
                ((getPawnStructureForColor game Side.w σ).2)).2)).2)).1 =
            (getPawnStructureForColor game Side.b
              ((getPawnStructureForColor game Side.w σ).2)).1 := by
          rw [getPawnStructureForColor_fst, hb2, ← hcu]
        rw [hwval, hbval]

theorem listPawns_congr {pos1 pos2 : Pos}
    (H : ∀ c f r, squareHasPawn pos1 c f r = squareHasPawn pos2 c f r)
    (c : Side) : listPawns pos1 c = listPawns pos2 c := by
  unfold listPawns
  congr 1
  funext s
  rw [H]

theorem countIsolatedPawns_congr {pos1 pos2 : Pos}
    (H : ∀ c f r, squareHasPawn pos1 c f r = squareHasPawn pos2 c f r)
    (c : Side) : countIsolatedPawns pos1 c = countIsolatedPawns pos2 c := by
  have hlp : ∀ c2, listPawns pos1 c2 = listPawns pos2 c2 := listPawns_congr H
  simp only [countIsolatedPawns, fileHasPawn, hlp]

theorem countDoubledPawns_congr {pos1 pos2 : Pos}
    (H : ∀ c f r, squareHasPawn pos1 c f r = squareHasPawn pos2 c f r)
    (c : Side) : countDoubledPawns pos1 c = countDoubledPawns pos2 c := by
  have hlp : ∀ c2, listPawns pos1 c2 = listPawns pos2 c2 := listPawns_congr H
  simp only [countDoubledPawns, pawnsOnFile, hlp]

theorem fileHasPawn_congr {pos1 pos2 : Pos}
    (H : ∀ c f r, squareHasPawn pos1 c f r = squareHasPawn pos2 c f r)
    (c : Side) (f : Int) : fileHasPawn pos1 c f = fileHasPawn pos2 c f := by
  simp only [fileHasPawn, listPawns_congr H]

theorem countPawnIslands_congr {pos1 pos2 : Pos}
    (H : ∀ c f r, squareHasPawn pos1 c f r = squareHasPawn pos2 c f r)
    (c : Side) : countPawnIslands pos1 c = countPawnIslands pos2 c := by
  unfold countPawnIslands filesWithPawns
  rw [show fileHasPawn pos1 c = fileHasPawn pos2 c from
    funext (fileHasPawn_congr H c)]

theorem countPassedPawns_congr {pos1 pos2 : Pos}
    (H : ∀ c f r, squareHasPawn pos1 c f r = squareHasPawn pos2 c f r)
    (c : Side) : countPassedPawns pos1 c = countPassedPawns pos2 c := by
  have hlp : ∀ c2, listPawns pos1 c2 = listPawns pos2 c2 := listPawns_congr H
  simp only [countPassedPawns, enemyPawnAheadOnFile, friendAheadOnFile,
    listEnemyPawns, hlp]

theorem countBackwardPawns_congr {pos1 pos2 : Pos}
    (H : ∀ c f r, squareHasPawn pos1 c f r = squareHasPawn pos2 c f r)
    (c : Side) : countBackwardPawns pos1 c = countBackwardPawns pos2 c := by
  have hlp : ∀ c2, listPawns pos1 c2 = listPawns pos2 c2 := listPawns_congr H
  simp only [countBackwardPawns, pawnControlsSquare, canBeSupportedFromBehind,
    hasFriendlyPotentialSupport, hlp, H]

theorem countHangingPawns_congr {pos1 pos2 : Pos}
    (H : ∀ c f r, squareHasPawn pos1 c f r = squareHasPawn pos2 c f r)
    (c : Side) : countHangingPawns pos1 c = countHangingPawns pos2 c := by
  have hlp : ∀ c2, listPawns pos1 c2 = listPawns pos2 c2 := listPawns_congr H
  simp only [countHangingPawns, advancedOnFile, halfOpenFor, fileHasPawn,
    listEnemyPawns, hlp]

theorem getPawnChains_congr {pos1 pos2 : Pos}
    (H : ∀ c f r, squareHasPawn pos1 c f r = squareHasPawn pos2 c f r)
    (c : Side) : getPawnChains pos1 c = getPawnChains pos2 c := by
  have hlp : ∀ c2, listPawns pos1 c2 = listPawns pos2 c2 := listPawns_congr H
  simp only [getPawnChains, hlp]

theorem countPawnRams_congr {pos1 pos2 : Pos}
    (H : ∀ c f r, squareHasPawn pos1 c f r = squareHasPawn pos2 c f r) :
    countPawnRams pos1 = countPawnRams pos2 := by
  have hlp : ∀ c2, listPawns pos1 c2 = listPawns pos2 c2 := listPawns_congr H
  simp only [countPawnRams, hlp, H]

theorem countPawnLevers_congr {pos1 pos2 : Pos}
    (H : ∀ c f r, squareHasPawn pos1 c f r = squareHasPawn pos2 c f r)
    (c : Side) : countPawnLevers pos1 c = countPawnLevers pos2 c := by
  have hlp : ∀ c2, listPawns pos1 c2 = listPawns pos2 c2 := listPawns_congr H
  simp only [countPawnLevers, hlp, H]

theorem countOverAdvancedPawns_congr {pos1 pos2 : Pos}
    (H : ∀ c f r, squareHasPawn pos1 c f r = squareHasPawn pos2 c f r)
    (c : Side) :
    countOverAdvancedPawns pos1 c = countOverAdvancedPawns pos2 c := by
  have hlp : ∀ c2, listPawns pos1 c2 = listPawns pos2 c2 := listPawns_congr H
  simp only [countOverAdvancedPawns, hasFriendlyPotentialSupport, hlp, H]

theorem detectWeakSquares_congr {pos1 pos2 : Pos}
    (H : ∀ c f r, squareHasPawn pos1 c f r = squareHasPawn pos2 c f r)
    (c : Side) : detectWeakSquares pos1 c = detectWeakSquares pos2 c := by
  simp only [detectWeakSquares, friendlyPawnCanGuardSquare, H]

theorem flankBonus_congr {pos1 pos2 : Pos}
    (H : ∀ c f r, squareHasPawn pos1 c f r = squareHasPawn pos2 c f r)
    (c : Side) : flankBonus pos1 c = flankBonus pos2 c := by
  have hlp : ∀ c2, listPawns pos1 c2 = listPawns pos2 c2 := listPawns_congr H
  simp only [flankBonus, queensideMajority, kingsideMajority,
    queensideMinority, kingsideMinority, queensidePawnCount,
    kingsidePawnCount, hlp]

theorem countCentralDoubledPawns_congr {pos1 pos2 : Pos}
    (H : ∀ c f r, squareHasPawn pos1 c f r = squareHasPawn pos2 c f r)
    (c : Side) :
    countCentralDoubledPawns pos1 c = countCentralDoubledPawns pos2 c := by
  have hlp : ∀ c2, listPawns pos1 c2 = listPawns pos2 c2 := listPawns_congr H
  simp only [countCentralDoubledPawns, pawnsOnFile, hlp]

theorem pawnStructureFresh_congr {pos1 pos2 : Pos}
    (H : ∀ c f r, squareHasPawn pos1 c f r = squareHasPawn pos2 c f r)
    (c : Side) : pawnStructureFresh pos1 c = pawnStructureFresh pos2 c := by
  have hlp : ∀ c2, listPawns pos1 c2 = listPawns pos2 c2 := listPawns_congr H
  unfold pawnStructureFresh
  congr 1
  unfold pawnScoreRaw
  rw [countCandidatePassedPawns_eq_zero pos1 c,
    countCandidatePassedPawns_eq_zero pos2 c]
  rw [show pawnTotal pos1 c = pawnTotal pos2 c by
    simp only [pawnTotal, countPawns, hlp]]
  rw [countIsolatedPawns_congr H c, countDoubledPawns_congr H c,
    countBackwardPawns_congr H c, countOverAdvancedPawns_congr H c,
    countCentralDoubledPawns_congr H c, countPawnIslands_congr H c,
    countHangingPawns_congr H c, countPawnRams_congr H,
    countPassedPawns_congr H c, countPawnLevers_congr H c,
    flankBonus_congr H c, detectWeakSquares_congr H c]
  rw [show countWeakPawns pos1 c = countWeakPawns pos2 c by
    simp only [countWeakPawns, countIsolatedPawns_congr H c,
      countBackwardPawns_congr H c, countOverAdvancedPawns_congr H c]]
  rw [show countPawnChains pos1 c = countPawnChains pos2 c by
    simp only [countPawnChains, getPawnChains_congr H c]]
  rw [show detectChainBases pos1 c = detectChainBases pos2 c by
    simp only [detectChainBases, getPawnChains_congr H c]]

/-- C9: for any two decoded positions with identical pawn squares for each
side (non-pawn placement, side to move and rights may differ arbitrarily),
getPawnStructureForColor computes the same fresh score for each side, and
the pawn-layout-keyed cache entry written for the first position is returned
for the second position and equals its fresh score. -/
theorem pawn_structure_depends_only_on_pawn_squares (pos1 pos2 : Pos)
    (H : ∀ c f r, squareHasPawn pos1 c f r = squareHasPawn pos2 c f r) :
    (∀ c σ, (getPawnStructureForColor pos1 c σ).1 =
      (getPawnStructureForColor pos2 c σ).1) ∧
    (∀ c, pawnStructureFresh pos1 c = pawnStructureFresh pos2 c) ∧
    (∀ c, (getPawnStructureForColor pos2 c
        ((getPawnStructureForColor pos1 c ([] : Cache)).2)).1 =
      pawnStructureFresh pos2 c) := by
  have hlp : ∀ c2, listPawns pos1 c2 = listPawns pos2 c2 := listPawns_congr H
  have hfresh : ∀ c, pawnStructureFresh pos1 c = pawnStructureFresh pos2 c :=
    pawnStructureFresh_congr H
  have hkey : computePawnKey pos1 = computePawnKey pos2 := by
    unfold computePawnKey
    rw [hlp, hlp]
  have hsame : ∀ c σ, (getPawnStructureForColor pos1 c σ).1 =
      (getPawnStructureForColor pos2 c σ).1 := by
    intro c σ
    rw [getPawnStructureForColor_fst, getPawnStructureForColor_fst]
    have hev : entryVal σ pos1 c = entryVal σ pos2 c := by
      unfold entryVal
      rw [hkey]
    rw [hev]
    cases entryVal σ pos2 c with
    | none => exact hfresh c
    | some v => rfl
  refine ⟨hsame, hfresh, fun c => ?_⟩
  have hstate : (getPawnStructureForColor pos1 c ([] : Cache)).2 =
      [(computePawnKey pos1,
        PawnEntry.set ⟨none, none⟩ c (pawnStructureFresh pos1 c))] := rfl
  rw [hstate, getPawnStructureForColor_fst]
  have hhit : entryVal [(computePawnKey pos1,
      PawnEntry.set ⟨none, none⟩ c (pawnStructureFresh pos1 c))] pos2 c =
      some (pawnStructureFresh pos1 c) := by
    unfold entryVal
    rw [cacheGet_cons, if_pos hkey, Option.some_bind, PawnEntry.get_set_same]
  rw [hhit, hfresh c]
  show clamp (clamp (pawnScoreRaw pos2 c)) = clamp (pawnScoreRaw pos2 c)
  exact clamp_clamp _

/-- A position with the same board as posTwoPawns but a different move list
(standing for different side to move or rights at the adapter). -/
def posTwoPawnsAlt : Pos :=
  ⟨posTwoPawns.get, fun _ => [⟨PT.n, 5, 5⟩]⟩

/-- C9 witness: two positions that differ in everything but pawn placement
agree on the White fresh score, and the cached value for the second equals
its fresh score. -/
theorem pawn_structure_depends_only_on_pawn_squares_witness :
    (getPawnStructureForColor posTwoPawns Side.w ([] : Cache)).1 =
      (getPawnStructureForColor posTwoPawnsAlt Side.w ([] : Cache)).1 ∧
    pawnStructureFresh posTwoPawns Side.w =
      pawnStructureFresh posTwoPawnsAlt Side.w ∧
    (getPawnStructureForColor posTwoPawnsAlt Side.w
      ((getPawnStructureForColor posTwoPawns Side.w ([] : Cache)).2)).1 =
      pawnStructureFresh posTwoPawnsAlt Side.w := by
  have h := pawn_structure_depends_only_on_pawn_squares posTwoPawns
    posTwoPawnsAlt (fun _ _ _ => rfl)
  exact ⟨h.1 Side.w ([] : Cache), h.2.1 Side.w, h.2.2 Side.w⟩

end KMaps
